import Mathlib

/-!
Shallow embedding of the csml-engine repository fragments needed to check the
specification's claims: the expression evaluator of
`src/src/interpreter/variable_handler/gen_literal.rs`, the argument binder of
`src/csml_interpreter/src/data/fn_args_type.rs`, and the bot-version / backend
selection helpers of `src/csml_engine/src/db_connectors/mod.rs`.

Rust `HashMap<String, _>` values are embedded as association lists with the
usual lookup/insert operations (a `HashMap` never holds two entries with the
same key, and its iteration order is abstracted by the list order).
Rust `Result<T, E>` becomes `Except E T`; `&mut` parameters become explicit
state passing (the function returns the new value of the parameter).
-/

namespace Csml

/-- Source position attached to AST nodes and literals
(`src/src/data/interval.rs`: a line/column pair of `u32`). -/
structure Interval where
  line : Nat
  column : Nat
deriving DecidableEq, Repr

mutual

/-- Modelled from the spec: the `Primitive` tagged union of the value model
(its source file is not part of the excerpt). Variants: String, Int, Float,
Boolean, Null, Array of Literals, Object mapping strings to Literals. Float
values are kept as their uninterpreted textual representation; no claim
computes with floats. -/
inductive Primitive where
  | pstring (s : String)
  | pint (n : Int)
  | pfloat (repr : String)
  | pboolean (b : Bool)
  | pnull
  | parray (items : List Literal)
  | pobject (props : List (String × Literal))

/-- Modelled from the spec: a `Literal` is a content-type tag, a source
Interval and a Primitive (the Literal source file is not part of the
excerpt). -/
inductive Literal where
  | mk (content_type : Option String) (interval : Interval) (primitive : Primitive)
end

/-- The Interval carried by a Literal. -/
def Literal.interval : Literal → Interval
  | .mk _ iv _ => iv

/-- The Primitive carried by a Literal. -/
def Literal.primitive : Literal → Primitive
  | .mk _ _ p => p

/-- Modelled from the spec: the `Literal::string` constructor — a string
Literal at the given Interval, with no content-type tag. -/
def Literal.string (value : String) (interval : Interval) : Literal :=
  .mk none interval (.pstring value)

/-- Modelled from the spec: the `Literal::null` constructor — a null Literal
at the given Interval. -/
def Literal.null (interval : Interval) : Literal :=
  .mk none interval .pnull

/-- Association-list embedding of Rust's `HashMap<String, Literal>`. -/
abbrev LitMap := List (String × Literal)

/-- `HashMap::get`: the value stored under a key, if any. -/
def mapGet (m : LitMap) (key : String) : Option Literal :=
  match m with
  | [] => none
  | (k, v) :: rest => if k == key then some v else mapGet rest key

/-- `HashMap::insert`: store a value under a key, overwriting any previous
entry for that key. -/
def mapInsert (m : LitMap) (key : String) (value : Literal) : LitMap :=
  match m with
  | [] => [(key, value)]
  | (k, v) :: rest =>
    if k == key then (key, value) :: rest else (k, v) :: mapInsert rest key value

/-- Embedding of `serde_json::Value`. Numbers are kept as their uninterpreted
textual representation; no claim computes with JSON numbers. -/
inductive Json where
  | null
  | jbool (b : Bool)
  | jnum (repr : String)
  | str (s : String)
  | arr (items : List Json)
  | obj (props : List (String × Json))

/-- `serde_json::Value::as_object`: the key/value pairs when the value is a
JSON object, `none` otherwise. -/
def Json.as_object : Json → Option (List (String × Json))
  | .obj props => some props
  | _ => none

/-- Lookup in a JSON object's key/value list. -/
def jsonGet (m : List (String × Json)) (key : String) : Option Json :=
  match m with
  | [] => none
  | (k, v) :: rest => if k == key then some v else jsonGet rest key

/-- Field lookup on a JSON value: defined on objects, `none` on every other
shape. -/
def Json.getField : Json → String → Option Json
  | .obj props, key => jsonGet props key
  | _, _ => none

namespace Src

/-!
Embedding of `src/src/interpreter/variable_handler/gen_literal.rs` and the
parts of its crate it relies on. The AST (`parser/ast.rs`), the tokens module
and the helper resolvers (`get_var`, `get_memory_action`, `decompose_object`,
`get_string_from_complexstring`) are not part of the excerpt; the AST and
tokens are modelled from the spec, and the resolvers are abstracted as
function parameters of the evaluator. The mutable `Data` context is threaded
explicitly: a resolver returns the Literal it produced together with the new
context.
-/

/-- Modelled from the spec: an `Identifier` carries the name string and its
Interval. -/
structure Identifier where
  ident : String
  interval : Interval
deriving DecidableEq, Repr

/-- Modelled from the spec: the `Expr` AST — a closed variant set of inline
constants, name references, chained (builder) accesses and template-like
concatenations; every node carries (or derives from its payload) a source
Interval. -/
inductive Expr where
  | LitExpr (literal : Literal)
  | IdentExpr (ident : Identifier)
  | BuilderExpr (left : Expr) (right : Expr)
  | ComplexLiteral (elems : List Expr) (interval : Interval)

/-- Whether an `Expr` is an inline literal node. -/
def Expr.isLit : Expr → Bool
  | .LitExpr _ => true
  | _ => false

/-- Whether an `Expr` is a bare identifier node. -/
def Expr.isIdent : Expr → Bool
  | .IdentExpr _ => true
  | _ => false

/-- The error type of the old interpreter crate (`error_format/data.rs`):
a message plus the offending Interval. -/
structure ErrorInfo where
  message : String
  interval : Interval
deriving DecidableEq, Repr

/-- Modelled from the spec: `interval_from_expr` recovers the source Interval
of an AST node (literals and identifiers carry theirs; a builder expression
reports its left side; a complex literal carries its own). -/
def interval_from_expr : Expr → Interval
  | .LitExpr literal => literal.interval
  | .IdentExpr ident => ident.interval
  | .BuilderExpr left _ => interval_from_expr left
  | .ComplexLiteral _ interval => interval

/-- Modelled from the spec: the memory-scope keyword of `parser/tokens.rs`. -/
def MEMORY : String := "memory"

/-- Modelled from the spec: the metadata-scope keyword of
`parser/tokens.rs`. -/
def METADATA : String := "metadata"

/-- Modelled from the spec: the past-results-scope keyword of
`parser/tokens.rs`. -/
def PAST : String := "past"

/-- Modelled from the spec: the per-turn `Data` context — the memory store
plus the remaining per-turn fields, both abstracted since their source is not
part of the excerpt. -/
structure Data (Memory Rest : Type) where
  memory : Memory
  rest : Rest

/-- `search_str`: true iff the expression is an identifier whose name equals
the given string. -/
def search_str (name : String) (expr : Expr) : Bool :=
  match expr with
  | .IdentExpr id => id.ident == name
  | _ => false

/-- `gen_literal_form_expr`: a literal evaluates to itself, an identifier is
resolved through `get_var`, and every other node is a diagnostic error at the
offending node's Interval. -/
def gen_literal_form_expr {Memory Rest : Type}
    (get_var : Identifier → Data Memory Rest → Except ErrorInfo (Literal × Data Memory Rest))
    (expr : Expr) (data : Data Memory Rest) :
    Except ErrorInfo (Literal × Data Memory Rest) :=
  match expr with
  | .LitExpr literal => .ok (literal, data)
  | .IdentExpr ident => get_var ident data
  | e => .error ⟨"Expression must be a literal or an identifier", interval_from_expr e⟩

/-- `gen_literal_form_builder`: scope-keyword builder expressions delegate to
`get_memory_action`; other builder expressions resolve their left identifier
with `get_var` and decompose along the right side, failing when the left side
is not an identifier; complex literals are stringified; bare identifiers are
resolved; anything else is a diagnostic error. -/
def gen_literal_form_builder {Memory Rest : Type}
    (get_memory_action :
      Memory → Expr → Expr → Data Memory Rest → Except ErrorInfo (Literal × Data Memory Rest))
    (get_var : Identifier → Data Memory Rest → Except ErrorInfo (Literal × Data Memory Rest))
    (decompose_object :
      Literal → Expr → Interval → Data Memory Rest → Except ErrorInfo (Literal × Data Memory Rest))
    (get_string_from_complexstring :
      List Expr → Data Memory Rest → Literal × Data Memory Rest)
    (expr : Expr) (data : Data Memory Rest) :
    Except ErrorInfo (Literal × Data Memory Rest) :=
  match expr with
  | .BuilderExpr elem e =>
    if search_str PAST elem then get_memory_action data.memory elem e data
    else if search_str MEMORY elem then get_memory_action data.memory elem e data
    else if search_str METADATA elem then get_memory_action data.memory elem e data
    else
      match elem with
      | .IdentExpr ident =>
        match get_var ident data with
        | .ok (literal, data) => decompose_object literal e ident.interval data
        | .error err => .error err
      | _ => .error ⟨"Error in Object builder", interval_from_expr elem⟩
  | .ComplexLiteral vec _ => .ok (get_string_from_complexstring vec data)
  | .IdentExpr ident => get_var ident data
  | e => .error ⟨"Error in Expression builder", interval_from_expr e⟩

/-- An inbound event (`interpreter/json_to_rust.rs`): its payload string. -/
structure Event where
  payload : String
deriving DecidableEq, Repr

/-- `gen_literal_form_event`: a present event's payload becomes a string
Literal, an absent event becomes a null Literal; never an error. -/
def gen_literal_form_event (event : Option Event) (interval : Interval) :
    Except ErrorInfo Literal :=
  match event with
  | some ⟨payload⟩ => .ok (Literal.string payload interval)
  | none => .ok (Literal.null interval)

end Src

namespace Interp

/-!
Embedding of `src/csml_interpreter/src/data/fn_args_type.rs`. The crate's
`Position` and `ErrorInfo` types and `gen_error_info` helper are not part of
the excerpt and are modelled from the spec (evaluator errors carry a message
and the offending Interval). `populate` and `populate_json_to_literal` take
`map` by `&mut` in Rust; here they return the new map together with the
`Result<(), ErrorInfo>` value.
-/

/-- Modelled from the spec: the error position of the interpreter crate,
wrapping the offending Interval. -/
structure Position where
  interval : Interval
deriving DecidableEq, Repr

/-- Modelled from the spec: `Position::new` wraps an Interval. -/
def Position.new (interval : Interval) : Position := ⟨interval⟩

/-- Modelled from the spec: the interpreter crate's error value — a position
and a message. -/
structure ErrorInfo where
  position : Position
  message : String
deriving DecidableEq, Repr

/-- Modelled from the spec: `gen_error_info` builds an error value from a
position and a message. -/
def gen_error_info (position : Position) (message : String) : ErrorInfo :=
  ⟨position, message⟩

/-- `ArgsType`: the binding of a call site's actual arguments — keyword-style
(`Named`) or positional (`Normal`), each a map from strings to Literals. -/
inductive ArgsType where
  | Named (var : LitMap)
  | Normal (var : LitMap)

/-- `ArgsType::get`: for `Named`, look up by key, falling back to the
synthesized key for index 0 when the key is absent and the index is 0; for
`Normal`, look up by the synthesized positional key. -/
def ArgsType.get (a : ArgsType) (key : String) (index : Nat) : Option Literal :=
  match a with
  | .Named var =>
    match mapGet var key, index with
    | some val, _ => some val
    | none, 0 => mapGet var ("arg" ++ toString (0 : Nat))
    | none, _ => none
  | .Normal var => mapGet var ("arg" ++ toString index)

/-- `ArgsType::populate`: for `Named`, copy every entry whose key is neither
among the declared names nor `"arg0"` into the target map; for `Normal`, fail
when fewer names are declared than arguments were passed, otherwise leave the
target map alone. -/
def ArgsType.populate (a : ArgsType) (map : LitMap) (vec : List String)
    (interval : Interval) : LitMap × Except ErrorInfo Unit :=
  match a with
  | .Named var =>
    (var.foldl
      (fun m kv =>
        if !(vec.contains kv.1) && kv.1 != "arg0" then mapInsert m kv.1 kv.2 else m)
      map,
     .ok ())
  | .Normal var =>
    if vec.length < var.length then
      (map, .error (gen_error_info (Position.new interval) "to many arguments"))
    else
      (map, .ok ())

/-- `ArgsType::populate_json_to_literal`: like `populate`, but an entry is
excluded when some JSON object in the sequence contains its key; for
`Normal`, fail when the JSON sequence is shorter than the argument map. -/
def ArgsType.populate_json_to_literal (a : ArgsType) (map : LitMap)
    (vec : List Json) (interval : Interval) : LitMap × Except ErrorInfo Unit :=
  match a with
  | .Named var =>
    (var.foldl
      (fun m kv =>
        let contains := vec.find? (fun obj =>
          match obj.as_object with
          | some jm => jm.any (fun p => p.1 == kv.1)
          | none => false)
        if contains.isNone && kv.1 != "arg0" then mapInsert m kv.1 kv.2 else m)
      map,
     .ok ())
  | .Normal var =>
    if vec.length < var.length then
      (map, .error (gen_error_info (Position.new interval) "to many arguments"))
    else
      (map, .ok ())

/-- All keys occurring in the object-valued elements of a JSON sequence, in
order. -/
def jsonKeys : List Json → List String
  | [] => []
  | j :: rest =>
    (match j.as_object with
     | some jm => jm.map Prod.fst
     | none => []) ++ jsonKeys rest

end Interp

namespace Engine

/-!
Embedding of `src/csml_engine/src/db_connectors/mod.rs`: bot-version
flattening and backend selection. `CsmlBot` lives in the interpreter crate
and is not part of the excerpt; it is modelled from the spec with the fields
`flatten` serializes. The process environment is abstracted as the optional
value of the `ENGINE_DB_TYPE` variable (`std::env::var` returning `Ok` maps
to `some`, `Err` to `none`).
-/

/-- Modelled from the spec: the fields of `CsmlBot` that bot-version
flattening serializes — id, name, optional fn endpoint, flows (kept as their
JSON serializations), optional custom components and the default flow
name. -/
structure CsmlBot where
  id : String
  name : String
  fn_endpoint : Option String
  flows : List Json
  custom_components : Option Json
  default_flow : String

/-- `BotVersion`: a stored bot together with its version id. -/
structure BotVersion where
  bot : CsmlBot
  version_id : String

/-- `serde_json` serialization of an optional string: `null` when absent. -/
def jsonOfOptionString : Option String → Json
  | some s => .str s
  | none => .null

/-- `serde_json` serialization of an optional JSON value: `null` when
absent. -/
def jsonOfOptionJson : Option Json → Json
  | some j => j
  | none => .null

/-- `BotVersion::flatten`: the JSON object exposed to API consumers, built
from the version id and the bot's id, name, fn endpoint, flows, custom
components and default flow. -/
def BotVersion.flatten (bv : BotVersion) : Json :=
  .obj
    [ ("version_id", .str bv.version_id),
      ("id", .str bv.bot.id),
      ("name", .str bv.bot.name),
      ("fn_endpoint", jsonOfOptionString bv.bot.fn_endpoint),
      ("flows", .arr bv.bot.flows),
      ("custom_components", jsonOfOptionJson bv.bot.custom_components),
      ("default_flow", .str bv.bot.default_flow) ]

/-- `is_mongodb`: the mongodb backend is selected when `ENGINE_DB_TYPE`
equals `"mongodb"` or is unset. -/
def is_mongodb (engine_db_type : Option String) : Bool :=
  match engine_db_type with
  | some val => val == "mongodb"
  | none => true

/-- `is_dynamodb`: the dynamodb backend is selected when `ENGINE_DB_TYPE`
equals `"dynamodb"`. -/
def is_dynamodb (engine_db_type : Option String) : Bool :=
  match engine_db_type with
  | some val => val == "dynamodb"
  | none => false

end Engine

/-!
Concrete fixtures used to evaluate the evaluator on closed inputs: a trivial
context and constant resolvers, and a few concrete AST nodes and literals.
-/

/-- A trivial concrete per-turn context. -/
def unitData : Src.Data Unit Unit := ⟨(), ()⟩

/-- A constant variable resolver: every identifier resolves to a fixed null
Literal and leaves the context unchanged. -/
def constGetVar :
    Src.Identifier → Src.Data Unit Unit → Except Src.ErrorInfo (Literal × Src.Data Unit Unit) :=
  fun _ d => .ok (Literal.null ⟨0, 0⟩, d)

/-- A constant memory-action resolver. -/
def constMemAction :
    Unit → Src.Expr → Src.Expr → Src.Data Unit Unit →
      Except Src.ErrorInfo (Literal × Src.Data Unit Unit) :=
  fun _ _ _ d => .ok (Literal.null ⟨9, 9⟩, d)

/-- A constant object-decomposition resolver: returns its input Literal. -/
def constDecompose :
    Literal → Src.Expr → Interval → Src.Data Unit Unit →
      Except Src.ErrorInfo (Literal × Src.Data Unit Unit) :=
  fun l _ _ d => .ok (l, d)

/-- A constant complex-string resolver. -/
def constComplex : List Src.Expr → Src.Data Unit Unit → Literal × Src.Data Unit Unit :=
  fun _ d => (Literal.null ⟨7, 7⟩, d)

/-- A concrete string Literal. -/
def litA : Literal := Literal.string "x" ⟨1, 2⟩

/-- A concrete null Literal at the origin. -/
def litNullZ : Literal := Literal.null ⟨0, 0⟩

/-- A concrete builder node whose left side is a bare literal at line 3,
column 4. -/
def builderNode : Src.Expr :=
  .BuilderExpr (.LitExpr (Literal.null ⟨3, 4⟩)) (.LitExpr (Literal.null ⟨5, 6⟩))

/-- A concrete identifier naming the memory scope keyword. -/
def identMem : Src.Identifier := ⟨"memory", ⟨1, 1⟩⟩

/-- A concrete identifier naming no scope keyword. -/
def identFoo : Src.Identifier := ⟨"foo", ⟨2, 2⟩⟩

/-- A concrete right-hand side for builder nodes. -/
def rightNode : Src.Expr := .LitExpr (Literal.null ⟨5, 6⟩)

/-- String equality tests are symmetric. -/
theorem string_beq_comm (a b : String) : (a == b) = (b == a) := by
  by_cases h : a = b
  · subst h; rfl
  · rw [beq_eq_false_iff_ne.mpr h, beq_eq_false_iff_ne.mpr (Ne.symm h)]

/-- Membership tests distribute over list concatenation. -/
theorem contains_append (l1 l2 : List String) (k : String) :
    (l1 ++ l2).contains k = (l1.contains k || l2.contains k) := by
  induction l1 with
  | nil => simp [List.contains]
  | cons a l ih =>
    simp [List.contains, List.elem] at ih ⊢
    cases h : (k == a) <;> simp [h, ih]

/-- Membership of a key among the first components of a pair list agrees with
the existence test the JSON populate variant performs. -/
theorem mapFst_contains (jm : List (String × Json)) (k : String) :
    (jm.map Prod.fst).contains k = jm.any (fun p => p.1 == k) := by
  induction jm with
  | nil => rfl
  | cons p rest ih =>
    simp [List.contains, List.elem, List.any] at ih ⊢
    rw [string_beq_comm k p.1]
    cases h : (p.1 == k) <;> simp [h, ih]

/-- The existence test of the JSON populate variant misses a key exactly when
the key occurs in no object-valued element of the sequence. -/
theorem json_find_isNone (vec : List Json) (k : String) :
    (vec.find? (fun obj =>
      match obj.as_object with
      | some jm => jm.any (fun p => p.1 == k)
      | none => false)).isNone
    = !((Interp.jsonKeys vec).contains k) := by
  induction vec with
  | nil => rfl
  | cons j rest ih =>
    cases j with
    | obj jm =>
      rw [List.find?]
      simp only [Json.as_object, Interp.jsonKeys]
      cases h : jm.any (fun p => p.1 == k) with
      | true =>
        simp only [Option.isNone_some, contains_append, mapFst_contains, h,
          Bool.true_or, Bool.not_true]
      | false =>
        simp only [Interp.jsonKeys, contains_append, mapFst_contains, h, Bool.false_or]
        exact ih
    | null =>
      rw [List.find?]
      simpa [Json.as_object, Interp.jsonKeys] using ih
    | jbool b =>
      rw [List.find?]
      simpa [Json.as_object, Interp.jsonKeys] using ih
    | jnum r =>
      rw [List.find?]
      simpa [Json.as_object, Interp.jsonKeys] using ih
    | str s =>
      rw [List.find?]
      simpa [Json.as_object, Interp.jsonKeys] using ih
    | arr xs =>
      rw [List.find?]
      simpa [Json.as_object, Interp.jsonKeys] using ih

/-- Claim C5: converting an absent event yields a null Literal at the given
Interval, converting a present event yields a string Literal carrying its
payload at the given Interval, and the conversion never returns an error. -/
theorem gen_literal_form_event_total :
    (∀ iv : Interval, Src.gen_literal_form_event none iv = .ok (Literal.null iv))
    ∧ (∀ (p : String) (iv : Interval),
        Src.gen_literal_form_event (some ⟨p⟩) iv = .ok (Literal.string p iv))
    ∧ (∀ (ev : Option Src.Event) (iv : Interval),
        ∃ l : Literal, Src.gen_literal_form_event ev iv = .ok l) := by
  refine ⟨fun _ => rfl, fun _ _ => rfl, fun ev iv => ?_⟩
  cases ev with
  | none => exact ⟨Literal.null iv, rfl⟩
  | some e => exact ⟨Literal.string e.payload iv, rfl⟩

/-- Claim C1, counterexample: on a node that is neither a literal nor an
identifier, gen_literal_form_expr errors with the message "Expression must be
a literal or an identifier", which is not the string the claim states. -/
theorem gen_literal_form_expr_message_counterexample :
    ∃ err : Src.ErrorInfo,
      Src.gen_literal_form_expr constGetVar builderNode unitData = .error err
      ∧ err.message ≠ "expression must be a literal or identifier" :=
  ⟨⟨"Expression must be a literal or an identifier", ⟨3, 4⟩⟩, rfl, by decide⟩

/-- Claim C1 (amended): a literal node evaluates to itself with the context
unchanged, and every node that is neither a literal nor an identifier is
rejected with the message "Expression must be a literal or an identifier" at
the offending node's Interval. -/
theorem gen_literal_form_expr_spec :
    (∀ (Memory Rest : Type)
      (gv : Src.Identifier → Src.Data Memory Rest →
        Except Src.ErrorInfo (Literal × Src.Data Memory Rest))
      (l : Literal) (data : Src.Data Memory Rest),
      Src.gen_literal_form_expr gv (.LitExpr l) data = .ok (l, data))
    ∧ (∀ (Memory Rest : Type)
      (gv : Src.Identifier → Src.Data Memory Rest →
        Except Src.ErrorInfo (Literal × Src.Data Memory Rest))
      (e : Src.Expr) (data : Src.Data Memory Rest),
      e.isLit = false → e.isIdent = false →
      Src.gen_literal_form_expr gv e data
        = .error ⟨"Expression must be a literal or an identifier",
            Src.interval_from_expr e⟩) := by
  refine ⟨fun _ _ _ _ _ => rfl, fun M R gv e data h1 h2 => ?_⟩
  cases e with
  | LitExpr l => simp [Src.Expr.isLit] at h1
  | IdentExpr i => simp [Src.Expr.isIdent] at h2
  | BuilderExpr a b => rfl
  | ComplexLiteral es iv => rfl

/-- Claim C1, witness for the amended theorem at concrete inputs. -/
theorem gen_literal_form_expr_spec_witness :
    (Src.gen_literal_form_expr constGetVar (.LitExpr litA) unitData = .ok (litA, unitData))
    ∧ ((Csml.builderNode).isLit = false ∧ (Csml.builderNode).isIdent = false
      ∧ Src.gen_literal_form_expr constGetVar builderNode unitData
          = .error ⟨"Expression must be a literal or an identifier",
              Src.interval_from_expr builderNode⟩) :=
  ⟨gen_literal_form_expr_spec.1 Unit Unit constGetVar litA unitData,
   rfl, rfl,
   gen_literal_form_expr_spec.2 Unit Unit constGetVar builderNode unitData rfl rfl⟩

/-- Claim C10: a bare literal node reaching the builder-expression evaluator
is rejected with the message "Error in Expression builder" at the node's
Interval, even though gen_literal_form_expr would accept the same node. -/
theorem gen_literal_form_builder_rejects_literal :
    ∀ (Memory Rest : Type)
      (gma : Memory → Src.Expr → Src.Expr → Src.Data Memory Rest →
        Except Src.ErrorInfo (Literal × Src.Data Memory Rest))
      (gv : Src.Identifier → Src.Data Memory Rest →
        Except Src.ErrorInfo (Literal × Src.Data Memory Rest))
      (dobj : Literal → Src.Expr → Interval → Src.Data Memory Rest →
        Except Src.ErrorInfo (Literal × Src.Data Memory Rest))
      (gsc : List Src.Expr → Src.Data Memory Rest → Literal × Src.Data Memory Rest)
      (l : Literal) (data : Src.Data Memory Rest),
      Src.gen_literal_form_builder gma gv dobj gsc (.LitExpr l) data
        = .error ⟨"Error in Expression builder", Src.interval_from_expr (.LitExpr l)⟩
      ∧ Src.gen_literal_form_expr gv (.LitExpr l) data = .ok (l, data) :=
  fun _ _ _ _ _ _ _ _ => ⟨rfl, rfl⟩

/-- Claim C4, counterexample: when the left side of a builder expression is
not an identifier, the diagnostic message is "Error in Object builder", which
is not the string the claim states. -/
theorem gen_literal_form_builder_message_counterexample :
    ∃ err : Src.ErrorInfo,
      Src.gen_literal_form_builder constMemAction constGetVar constDecompose constComplex
        builderNode unitData = .error err
      ∧ err.message ≠ "error in object builder" :=
  ⟨⟨"Error in Object builder", ⟨3, 4⟩⟩, rfl, by decide⟩

/-- Claim C4 (amended): a builder expression whose left side is an identifier
naming the past, memory or metadata scope keyword delegates to the
memory-action resolver; one whose left side is any other identifier resolves
it through the variable resolver and decomposes the result along the right
side; and one whose left side is not an identifier fails with the message
"Error in Object builder" at the left side's Interval. -/
theorem gen_literal_form_builder_dispatch :
    ∀ (Memory Rest : Type)
      (gma : Memory → Src.Expr → Src.Expr → Src.Data Memory Rest →
        Except Src.ErrorInfo (Literal × Src.Data Memory Rest))
      (gv : Src.Identifier → Src.Data Memory Rest →
        Except Src.ErrorInfo (Literal × Src.Data Memory Rest))
      (dobj : Literal → Src.Expr → Interval → Src.Data Memory Rest →
        Except Src.ErrorInfo (Literal × Src.Data Memory Rest))
      (gsc : List Src.Expr → Src.Data Memory Rest → Literal × Src.Data Memory Rest)
      (e : Src.Expr) (data : Src.Data Memory Rest),
      (∀ ident : Src.Identifier,
        (ident.ident = Src.PAST ∨ ident.ident = Src.MEMORY ∨ ident.ident = Src.METADATA) →
        Src.gen_literal_form_builder gma gv dobj gsc
            (.BuilderExpr (.IdentExpr ident) e) data
          = gma data.memory (.IdentExpr ident) e data)
      ∧ (∀ (ident : Src.Identifier) (lit : Literal) (d2 : Src.Data Memory Rest),
        ident.ident ≠ Src.PAST → ident.ident ≠ Src.MEMORY → ident.ident ≠ Src.METADATA →
        gv ident data = .ok (lit, d2) →
        Src.gen_literal_form_builder gma gv dobj gsc
            (.BuilderExpr (.IdentExpr ident) e) data
          = dobj lit e ident.interval d2)
      ∧ (∀ elem : Src.Expr, elem.isIdent = false →
        Src.gen_literal_form_builder gma gv dobj gsc (.BuilderExpr elem e) data
          = .error ⟨"Error in Object builder", Src.interval_from_expr elem⟩) := by
  intro Memory Rest gma gv dobj gsc e data
  refine ⟨fun ident h => ?_, fun ident lit d2 h1 h2 h3 hgv => ?_, fun elem h => ?_⟩
  · obtain ⟨s, iv⟩ := ident
    rcases h with h | h | h <;> (simp only at h; subst h; rfl)
  · simp only [Src.gen_literal_form_builder, Src.search_str,
      beq_eq_false_iff_ne.mpr h1, beq_eq_false_iff_ne.mpr h2,
      beq_eq_false_iff_ne.mpr h3, Bool.false_eq_true, if_false, hgv]
  · cases elem with
    | LitExpr l => rfl
    | IdentExpr i => simp [Src.Expr.isIdent] at h
    | BuilderExpr a b => rfl
    | ComplexLiteral es iv => rfl

/-- Claim C4, witness for the amended theorem at concrete inputs: a memory
keyword delegates, an ordinary identifier decomposes, a literal left side
fails. -/
theorem gen_literal_form_builder_dispatch_witness :
    (Src.gen_literal_form_builder constMemAction constGetVar constDecompose constComplex
        (.BuilderExpr (.IdentExpr identMem) rightNode) unitData
      = constMemAction () (.IdentExpr identMem) rightNode unitData)
    ∧ (Src.gen_literal_form_builder constMemAction constGetVar constDecompose constComplex
        (.BuilderExpr (.IdentExpr identFoo) rightNode) unitData
      = constDecompose (Literal.null ⟨0, 0⟩) rightNode identFoo.interval unitData)
    ∧ (Src.gen_literal_form_builder constMemAction constGetVar constDecompose constComplex
        (.BuilderExpr (.LitExpr (Literal.null ⟨3, 4⟩)) rightNode) unitData
      = .error ⟨"Error in Object builder", ⟨3, 4⟩⟩) :=
  ⟨(gen_literal_form_builder_dispatch Unit Unit constMemAction constGetVar constDecompose
      constComplex rightNode unitData).1 identMem (Or.inr (Or.inl rfl)),
   (gen_literal_form_builder_dispatch Unit Unit constMemAction constGetVar constDecompose
      constComplex rightNode unitData).2.1 identFoo (Literal.null ⟨0, 0⟩) unitData
      (by decide) (by decide) (by decide) rfl,
   (gen_literal_form_builder_dispatch Unit Unit constMemAction constGetVar constDecompose
      constComplex rightNode unitData).2.2 (.LitExpr (Literal.null ⟨3, 4⟩)) rfl⟩

/-- Folding with pointwise-equal step functions gives equal results. -/
theorem foldl_congr_fun {α β : Type} {f g : α → β → α} (h : ∀ a b, f a b = g a b)
    (init : α) (l : List β) : l.foldl f init = l.foldl g init := by
  induction l generalizing init with
  | nil => rfl
  | cons x xs ih => simp only [List.foldl]; rw [h]; exact ih _

/-- Claim C2: on Named arguments, get returns the value stored under the key
when present, falls back to the reserved key "arg0" when the key is absent
and the index is 0, and returns none in every other missing case; on Normal
arguments it looks up the synthesized positional key, ignoring the key. -/
theorem argstype_get_spec :
    (∀ (var : LitMap) (key : String) (index : Nat) (v : Literal),
      mapGet var key = some v → (Interp.ArgsType.Named var).get key index = some v)
    ∧ (∀ (var : LitMap) (key : String),
      mapGet var key = none →
      (Interp.ArgsType.Named var).get key 0 = mapGet var "arg0")
    ∧ (∀ (var : LitMap) (key : String) (index : Nat),
      mapGet var key = none → index ≠ 0 →
      (Interp.ArgsType.Named var).get key index = none)
    ∧ (∀ (var : LitMap) (key : String) (index : Nat),
      (Interp.ArgsType.Normal var).get key index
        = mapGet var ("arg" ++ toString index)) := by
  refine ⟨fun var key index v h => ?_, fun var key h => ?_,
    fun var key index h hne => ?_, fun var key index => rfl⟩
  · simp [Interp.ArgsType.get, h]
  · simp only [Interp.ArgsType.get, h]
    rfl
  · cases index with
    | zero => exact absurd rfl hne
    | succ n => simp [Interp.ArgsType.get, h]

/-- Claim C2, witness at concrete inputs: a present key, the reserved-key
fallback at index 0, and a missing key at a nonzero index. -/
theorem argstype_get_spec_witness :
    ((Interp.ArgsType.Named [("x", litA)]).get "x" 5 = some litA)
    ∧ ((Interp.ArgsType.Named [("arg0", litA)]).get "y" 0
        = mapGet [("arg0", litA)] "arg0")
    ∧ ((Interp.ArgsType.Named [("arg0", litA)]).get "y" 3 = none) :=
  ⟨argstype_get_spec.1 [("x", litA)] "x" 5 litA rfl,
   argstype_get_spec.2.1 [("arg0", litA)] "y" rfl,
   argstype_get_spec.2.2.1 [("arg0", litA)] "y" 3 rfl (by decide)⟩

/-- Claim C3: at a Normal binding with one actual argument and no declared
parameter names, populate fails as the claim says, but the error message the
code produces is the misspelled "to many arguments", not the claim's
"too many arguments"; in general the Normal result is an error exactly when
fewer names are declared than arguments were passed. -/
theorem populate_normal_overflow_message :
    ((Interp.ArgsType.Normal [("arg0", litNullZ)]).populate [] [] ⟨0, 0⟩
      = ([], .error (Interp.gen_error_info (Interp.Position.new ⟨0, 0⟩)
          "to many arguments")))
    ∧ "to many arguments" ≠ "too many arguments"
    ∧ (∀ (var map : LitMap) (vec : List String) (iv : Interval),
        ((Interp.ArgsType.Normal var).populate map vec iv).2
          = if vec.length < var.length then
              .error (Interp.gen_error_info (Interp.Position.new iv) "to many arguments")
            else .ok ()) := by
  refine ⟨rfl, by decide, fun var map vec iv => ?_⟩
  simp only [Interp.ArgsType.populate]
  split <;> rfl

/-- Claim C6, counterexample: on a Normal binding with one actual argument
and a JSON sequence holding one non-object element, the JSON variant
succeeds, while populate applied to the keys of the sequence's object-valued
elements (an empty list) fails — so the two are not equivalent as the claim
states. -/
theorem populate_json_equivalence_counterexample :
    ((Interp.ArgsType.Normal [("arg0", litNullZ)]).populate_json_to_literal
        [] [Json.null] ⟨0, 0⟩
      = ([], .ok ()))
    ∧ ((Interp.ArgsType.Normal [("arg0", litNullZ)]).populate
        [] (Interp.jsonKeys [Json.null]) ⟨0, 0⟩
      = ([], .error (Interp.gen_error_info (Interp.Position.new ⟨0, 0⟩)
          "to many arguments"))) :=
  ⟨rfl, rfl⟩

/-- Claim C6 (amended): on Named arguments the JSON variant coincides with
populate applied to the list of all keys of the sequence's object-valued
elements; on Normal arguments it coincides with populate applied to any
declared-name list of the same length as the JSON sequence — it errors
exactly when the sequence is shorter than the actual-argument map. -/
theorem populate_json_to_literal_spec :
    (∀ (var map : LitMap) (vec : List Json) (iv : Interval),
      (Interp.ArgsType.Named var).populate_json_to_literal map vec iv
        = (Interp.ArgsType.Named var).populate map (Interp.jsonKeys vec) iv)
    ∧ (∀ (var map : LitMap) (vec : List Json) (names : List String) (iv : Interval),
      names.length = vec.length →
      (Interp.ArgsType.Normal var).populate_json_to_literal map vec iv
        = (Interp.ArgsType.Normal var).populate map names iv) := by
  constructor
  · intro var map vec iv
    simp only [Interp.ArgsType.populate_json_to_literal, Interp.ArgsType.populate]
    refine congrArg (fun z => (z, (Except.ok () : Except Interp.ErrorInfo Unit))) ?_
    exact foldl_congr_fun (fun m kv => by rw [json_find_isNone]) map var
  · intro var map vec names iv h
    simp only [Interp.ArgsType.populate_json_to_literal, Interp.ArgsType.populate]
    rw [h]

/-- Claim C6, witness for the amended theorem at concrete inputs. -/
theorem populate_json_to_literal_spec_witness :
    ((Interp.ArgsType.Named [("k", litA)]).populate_json_to_literal
        [] [Json.obj [("a", Json.null)]] ⟨0, 0⟩
      = (Interp.ArgsType.Named [("k", litA)]).populate
        [] (Interp.jsonKeys [Json.obj [("a", Json.null)]]) ⟨0, 0⟩)
    ∧ ((Interp.ArgsType.Normal [("arg0", litA)]).populate_json_to_literal
        [] [Json.null] ⟨0, 0⟩
      = (Interp.ArgsType.Normal [("arg0", litA)]).populate [] ["x"] ⟨0, 0⟩) :=
  ⟨populate_json_to_literal_spec.1 [("k", litA)] [] [Json.obj [("a", Json.null)]] ⟨0, 0⟩,
   populate_json_to_literal_spec.2 [("arg0", litA)] [] [Json.null] ["x"] ⟨0, 0⟩ rfl⟩

/-- Claim C7: the flattened bot version exposes exactly the version id and
the bot's id, name, fn endpoint, flows, custom components and default flow;
the engine-internal fields engine_version and created_at are absent. -/
theorem bot_version_flatten_fields :
    ∀ bv : Engine.BotVersion,
      (bv.flatten.getField "version_id" = some (.str bv.version_id))
      ∧ (bv.flatten.getField "id" = some (.str bv.bot.id))
      ∧ (bv.flatten.getField "name" = some (.str bv.bot.name))
      ∧ (bv.flatten.getField "fn_endpoint"
          = some (Engine.jsonOfOptionString bv.bot.fn_endpoint))
      ∧ (bv.flatten.getField "flows" = some (.arr bv.bot.flows))
      ∧ (bv.flatten.getField "custom_components"
          = some (Engine.jsonOfOptionJson bv.bot.custom_components))
      ∧ (bv.flatten.getField "default_flow" = some (.str bv.bot.default_flow))
      ∧ (bv.flatten.getField "engine_version" = none)
      ∧ (bv.flatten.getField "created_at" = none) :=
  fun _ => ⟨rfl, rfl, rfl, rfl, rfl, rfl, rfl, rfl, rfl⟩

/-- Claim C8: on a Normal binding, populate and its JSON variant leave the
caller-supplied target map unchanged, in the success case and in the error
case alike; neither function produces a new ArgsType — the receiver is taken
by immutable value, as the source takes it by shared reference. -/
theorem populate_normal_frame :
    ∀ (var map : LitMap) (vec : List String) (jvec : List Json) (iv : Interval),
      (((Interp.ArgsType.Normal var).populate map vec iv).1 = map)
      ∧ (((Interp.ArgsType.Normal var).populate_json_to_literal map jvec iv).1 = map) := by
  intro var map vec jvec iv
  constructor
  · simp only [Interp.ArgsType.populate]
    split <;> rfl
  · simp only [Interp.ArgsType.populate_json_to_literal]
    split <;> rfl

/-- Claim C9: with the ENGINE_DB_TYPE switch unset, mongodb is selected and
dynamodb is not; dynamodb is selected exactly when the switch equals
"dynamodb", and mongodb exactly when the switch is unset or equals
"mongodb". -/
theorem db_backend_selection :
    (Engine.is_mongodb none = true)
    ∧ (Engine.is_dynamodb none = false)
    ∧ (∀ env : Option String, Engine.is_dynamodb env = (env == some "dynamodb"))
    ∧ (∀ env : Option String,
        Engine.is_mongodb env = (env.isNone || env == some "mongodb")) := by
  refine ⟨rfl, rfl, fun env => ?_, fun env => ?_⟩
  · cases env <;> rfl
  · cases env <;> rfl

end Csml
